import Mathlib

/-!
# Verification of the `ingest` file-ingestion backend

Shallow embedding of the core logic of the `ingest` repository:
the file-type classifier (`packages/shared/src/utils/detect-file-type.ts`),
the size validator (`packages/shared/src/utils/validate-file-size.ts`),
the shared constants (`packages/shared/src/constants/file.ts`),
the DynamoDB-backed metadata repository (`DynamoFileRepository`),
the presigned-URL issuing service (`PresignedUrlService.generateUploadUrl`),
the S3 key builder (`generateS3Key`), and the S3 event status-reconciler
handler.  JavaScript strings are modelled as Lean `String`s, JavaScript
numbers on the integer-valued paths as `Nat`/`Int`, `undefined`/optional
attributes as `Option`, and the DynamoDB table as a list of stored items.
-/

/-! ## Character and string helpers

The TypeScript sources use `String.prototype` operations
(`toLowerCase`, `includes`, `endsWith`, `startsWith`, `split`,
`lastIndexOf`/`substring`).  They are modelled here as executable
functions on `List Char`, which is what Lean's `String` wraps.  The
case-conversion model covers the ASCII range; every string the verified
components compare case-insensitively (MIME types, file extensions) is
ASCII. -/

/-- ASCII lower-casing of one character (model of the effect of
`String.prototype.toLowerCase` on ASCII input). -/
def lowerChar (c : Char) : Char :=
  if 'A' ≤ c ∧ c ≤ 'Z' then Char.ofNat (c.toNat + 32) else c

/-- ASCII lower-casing of a string. -/
def asciiLower (s : String) : String :=
  String.mk (s.data.map lowerChar)

/-- Boolean prefix test on character lists. -/
def isPrefixOfB (pat s : List Char) : Bool :=
  match pat, s with
  | [], _ => true
  | x :: xs, y :: ys => x = y && isPrefixOfB xs ys
  | _ :: _, [] => false

/-- Boolean substring test (model of `String.prototype.includes`). -/
def containsSub (needle : List Char) : List Char → Bool
  | [] => isPrefixOfB needle []
  | c :: rest => isPrefixOfB needle (c :: rest) || containsSub needle rest

/-- Boolean suffix test (model of `String.prototype.endsWith`). -/
def endsWithB (s suffix : List Char) : Bool :=
  isPrefixOfB suffix.reverse s.reverse

/-- String-level substring test. -/
def strContains (s needle : String) : Bool :=
  containsSub needle.data s.data

/-- String-level suffix test. -/
def strEndsWith (s suffix : String) : Bool :=
  endsWithB s.data suffix.data

/-- String-level prefix test (model of `String.prototype.startsWith`). -/
def strStartsWith (s pre : String) : Bool :=
  isPrefixOfB pre.data s.data

/-! ## Shared constants — `packages/shared/src/constants/file.ts` -/

namespace FILE_CONSTANTS

def MAX_PDF_SIZE_BYTES : Nat := 10 * 1024 * 1024

def MAX_IMAGE_SIZE_BYTES : Nat := 5 * 1024 * 1024

def ALLOWED_PDF_TYPES : List String := ["application/pdf"]

def ALLOWED_IMAGE_TYPES : List String :=
  ["image/jpeg", "image/jpg", "image/png", "image/gif", "image/webp"]

end FILE_CONSTANTS

/-! ## File type classifier — `packages/shared/src/utils/detect-file-type.ts` -/

/-- The classifier's result type (`TFileType`). -/
inductive TFileType
  | pdf
  | image
  | unknown
deriving Repr, DecidableEq

/-- The image-extension alternatives of the regular expression
`/\.(jpg|jpeg|png|gif|webp|svg)$/i` in `FileTypeDetector.detect`. -/
def imageExtensions : List String := ["jpg", "jpeg", "png", "gif", "webp", "svg"]

/-- `FileTypeDetector.detect`.  Lower-cases both inputs, returns `pdf` when
the MIME type contains `"pdf"` or the file name ends in `".pdf"`, else
`image` when the MIME type starts with `"image/"` or the (lowered) file
name matches `/\.(jpg|jpeg|png|gif|webp|svg)$/i`, else `unknown`. -/
def FileTypeDetector.detect (contentType fileName : String) : TFileType :=
  let lowerContentType := asciiLower contentType
  let lowerFileName := asciiLower fileName
  if strContains lowerContentType "pdf" || strEndsWith lowerFileName ".pdf" then
    .pdf
  else if strStartsWith lowerContentType "image/"
      || imageExtensions.any (fun e => strEndsWith lowerFileName ("." ++ e)) then
    .image
  else
    .unknown

/-! ## Size formatting and the size validator —
`packages/shared/src/utils/validate-file-size.ts`

The sources format sizes as `(bytes / (1024 * 1024)).toFixed(2)`.  For a
natural byte count `b`, the JavaScript double `b / 1048576` is the exact
rational (power-of-two denominator), and `toFixed(2)` then picks the
integer `n` minimising `|n / 100 - x|`, the larger `n` on ties — i.e.
round-half-up of `x * 100`.  `mbToFixed2` computes exactly that. -/

/-- Two-digit rendering of a residue below 100 (the fractional digits). -/
def pad2 (n : Nat) : String :=
  if n < 10 then "0" ++ toString n else toString n

/-- `(bytes / (1024 * 1024)).toFixed(2)` — megabyte formatting with two
decimal places, rounding half up as `toFixed` does for these inputs. -/
def mbToFixed2 (bytes : Nat) : String :=
  let hundredths := (bytes * 100 + 524288) / 1048576
  toString (hundredths / 100) ++ "." ++ pad2 (hundredths % 100)

/-- `IValidationResult` from `packages/shared/src/types/file.ts`. -/
structure IValidationResult where
  valid : Bool
  error : Option String := none
deriving Repr, DecidableEq

/-- `ValidateFileSize.validate`: rejects iff `size > maxSizeBytes` (the
configured ceiling), with a message reporting both sizes in MB with two
decimal places. -/
def ValidateFileSize.validate (maxSizeBytes : Nat) (size : Nat) : IValidationResult :=
  if size > maxSizeBytes then
    { valid := false
      error := some ("File size " ++ mbToFixed2 size
        ++ "MB exceeds maximum allowed size of " ++ mbToFixed2 maxSizeBytes ++ "MB") }
  else
    { valid := true }

example : FileTypeDetector.detect "APPLICATION/PDF" "x" = .pdf := by decide

example : FileTypeDetector.detect "unknown/type" "a.PDF" = .pdf := by decide

example : FileTypeDetector.detect "image/png" "x" = .image := by decide

example : FileTypeDetector.detect "text/plain" "x.txt" = .unknown := by decide

example : mbToFixed2 10485760 = "10.00" := by decide

example : mbToFixed2 10485761 = "10.00" := by decide

example : mbToFixed2 11534336 = "11.00" := by decide

example : (ValidateFileSize.validate FILE_CONSTANTS.MAX_PDF_SIZE_BYTES 10485760).valid = true := by
  decide

/-! ## The metadata store — `DynamoFileRepository`

The DynamoDB table `FilesTable` is modelled as a list of stored items;
list order models the enumeration order of scans and index queries.
`PutItem` replaces the whole item at a key (or appends a new one),
`UpdateItem` with a `SET` expression overwrites exactly the listed
attributes, `DeleteItem` removes every item at a key, and the
`FileIdIndex` GSI query with `Limit: 1` returns the first item whose
`fileId` attribute matches. -/

/-- `File.IFile` from `packages/shared/src/types/file.ts`: the record shape
the repository consumes and produces.  Optional fields model attributes
that may be `undefined`. -/
structure IFile where
  fileId : String
  userId : String
  fileName : String
  mimeType : String
  sizeBytes : Nat
  status : String
  s3Bucket : String
  s3Key : String
  createdAt : String
  updatedAt : String
  uploadedAt : Option String := none
  expiresAt : Option String := none
  ttl : Option Int := none
deriving Repr, DecidableEq

/-- One DynamoDB item of `FilesTable`, with its key attributes `PK`/`SK`
and the attributes `DynamoFileRepository` reads and writes.  `Option`
fields model attributes that may be absent from the item. -/
structure StoredItem where
  PK : String
  SK : String
  fileId : String
  userId : String
  fileName : String
  mimeType : String
  sizeBytes : Nat
  status : String
  s3Bucket : String
  s3Key : String
  createdAt : String
  updatedAt : String
  uploadedAt : Option String
  expiresAt : Option String
  ttl : Option Int
deriving Repr, DecidableEq

/-- The table state. -/
abbrev Store := List StoredItem

/-- Partition key encoding: `` `USER#${userId}` ``. -/
def userPK (userId : String) : String := "USER#" ++ userId

/-- Sort key encoding: `` `FILE#${fileId}` ``. -/
def fileSK (fileId : String) : String := "FILE#" ++ fileId

/-- Key equality of a stored item against a `(PK, SK)` pair. -/
def keyMatches (pk sk : String) (it : StoredItem) : Bool :=
  it.PK == pk && it.SK == sk

/-- `PutCommand` semantics: unconditional full-item replacement at the
item's key, or insertion when the key is new.  The source issues the put
with no `ConditionExpression`, so an existing item is silently overwritten. -/
def putItem (item : StoredItem) (store : Store) : Store :=
  if store.any (keyMatches item.PK item.SK) then
    store.map fun it => if keyMatches item.PK item.SK it then item else it
  else
    store ++ [item]

/-- `GetCommand` semantics: point lookup by `(PK, SK)`. -/
def getItem (pk sk : String) (store : Store) : Option StoredItem :=
  store.find? (keyMatches pk sk)

/-- `DeleteCommand` semantics: removes the item at `(PK, SK)` (succeeds
also when the key is absent). -/
def deleteItem (pk sk : String) (store : Store) : Store :=
  store.filter fun it => !keyMatches pk sk it

/-- JavaScript truthiness of an optional string: `undefined` and `""` are
falsy. -/
def strTruthy : Option String → Bool
  | none => false
  | some v => v ≠ ""

/-- JavaScript `a || b` on strings: `a` unless it is falsy (empty). -/
def strOrElse (a b : String) : String :=
  if a = "" then b else a

namespace DynamoFileRepository

/-- The item `createFile` builds from a `File.IFile`.  `epochMs` models
`new Date(iso).getTime()` (milliseconds since the epoch) for the
ISO-timestamp strings the callers store; `now` models
`new Date().toISOString()` at the call.  The `ttl` attribute
(`Math.floor((getTime(expiresAt) + 48h) / 1000)`) is computed only for
`PENDING_UPLOAD` files carrying a truthy `expiresAt`, and — like every
`...(x && { x })` spread — is omitted when the computed value is falsy. -/
def itemOfFile (epochMs : String → Int) (now : String) (file : IFile) : StoredItem :=
  let ttlVal : Option Int :=
    if file.status = "PENDING_UPLOAD" ∧ strTruthy file.expiresAt then
      match file.expiresAt with
      | some e => some (Int.fdiv (epochMs e + 48 * 60 * 60 * 1000) 1000)
      | none => none
    else none
  { PK := userPK file.userId
    SK := fileSK file.fileId
    fileId := file.fileId
    userId := file.userId
    fileName := file.fileName
    mimeType := file.mimeType
    sizeBytes := file.sizeBytes
    status := file.status
    s3Bucket := file.s3Bucket
    s3Key := file.s3Key
    createdAt := strOrElse file.createdAt now
    updatedAt := strOrElse file.updatedAt now
    uploadedAt := if strTruthy file.uploadedAt then file.uploadedAt else none
    expiresAt := if strTruthy file.expiresAt then file.expiresAt else none
    ttl := match ttlVal with
      | some t => if t = 0 then none else some t
      | none => none }

/-- `DynamoFileRepository.createFile`: builds the item and issues an
unconditional `PutCommand`. -/
def createFile (epochMs : String → Int) (now : String) (file : IFile)
    (store : Store) : Store :=
  putItem (itemOfFile epochMs now file) store

/-- The decoding `getFile`/`getFileById`/`listFiles` apply to a raw item. -/
def fileOfItem (it : StoredItem) : IFile :=
  { fileId := it.fileId
    userId := it.userId
    fileName := it.fileName
    mimeType := it.mimeType
    sizeBytes := it.sizeBytes
    status := it.status
    s3Bucket := it.s3Bucket
    s3Key := it.s3Key
    createdAt := it.createdAt
    updatedAt := it.updatedAt
    uploadedAt := it.uploadedAt
    expiresAt := it.expiresAt
    ttl := it.ttl }

/-- `DynamoFileRepository.getFile`: point lookup by `(USER#userId, FILE#fileId)`. -/
def getFile (fileId userId : String) (store : Store) : Option IFile :=
  (getItem (userPK userId) (fileSK fileId) store).map fileOfItem

/-- `DynamoFileRepository.getFileById`: `FileIdIndex` GSI query with
`Limit: 1`, returning the first item whose `fileId` matches. -/
def getFileById (fileId : String) (store : Store) : Option IFile :=
  (store.find? fun it => it.fileId == fileId).map fileOfItem

/-- The `Partial<File.IFile>` argument of `updateFile`: exactly the fields
its update-expression builder inspects, `none` modelling `undefined`
(field not supplied). -/
structure FileUpdates where
  status : Option String := none
  uploadedAt : Option String := none
  fileName : Option String := none
  mimeType : Option String := none
  sizeBytes : Option Nat := none
  s3Bucket : Option String := none
  s3Key : Option String := none
deriving Repr, DecidableEq

/-- Effect of the generated `SET` update expression on one item: each
supplied field is overwritten, and `updatedAt` is always set to `now`.
No other attribute is touched — in particular the expression never
`REMOVE`s `expiresAt` or `ttl`. -/
def applyUpdates (updates : FileUpdates) (now : String) (it : StoredItem) : StoredItem :=
  let it := match updates.status with | some v => { it with status := v } | none => it
  let it := match updates.uploadedAt with | some v => { it with uploadedAt := some v } | none => it
  let it := match updates.fileName with | some v => { it with fileName := v } | none => it
  let it := match updates.mimeType with | some v => { it with mimeType := v } | none => it
  let it := match updates.sizeBytes with | some v => { it with sizeBytes := v } | none => it
  let it := match updates.s3Bucket with | some v => { it with s3Bucket := v } | none => it
  let it := match updates.s3Key with | some v => { it with s3Key := v } | none => it
  { it with updatedAt := now }

/-- `DynamoFileRepository.updateFile`: issues an `UpdateCommand` keyed on
`(USER#userId, FILE#fileId)` with the generated `SET` expression (the
`updateExpressions.length === 0` early return is unreachable because
`updatedAt` is always pushed).  The verified flows only ever update
existing records, so DynamoDB's create-on-missing-key behaviour of
`UpdateItem` is not modelled: an absent key leaves the table unchanged. -/
def updateFile (fileId userId : String) (updates : FileUpdates) (now : String)
    (store : Store) : Store :=
  store.map fun it =>
    if keyMatches (userPK userId) (fileSK fileId) it then applyUpdates updates now it else it

end DynamoFileRepository

/-! ## Expiry sweep — `DynamoFileRepository.deleteExpiredPendingFiles`

The `StatusExpiresAtIndex` GSI (hash `status`, range `expiresAt`) is
sparse: only items carrying an `expiresAt` attribute appear in it.  The
query condition is `#status = :status AND expiresAt < :expiredBefore`
with string (ISO-timestamp) comparison.  A `DeleteCommand` may fail
transiently; the loop logs and continues, counting only successes.  The
oracle `delFails` models which individual deletions fail. -/

/-- Lexicographic order on character lists: DynamoDB compares string range
keys by UTF-8 byte order, which coincides with code-point order. -/
def charListLt : List Char → List Char → Bool
  | [], [] => false
  | [], _ :: _ => true
  | _ :: _, [] => false
  | a :: as, b :: bs => if a = b then charListLt as bs else decide (a < b)

/-- DynamoDB's `<` on string attributes. -/
def strLt (a b : String) : Bool := charListLt a.data b.data

/-- The `StatusExpiresAtIndex` query predicate:
`status = "PENDING_UPLOAD" AND expiresAt < expiredBefore` (items without
`expiresAt` are absent from the sparse index). -/
def expiredPendingMatch (expiredBefore : String) (it : StoredItem) : Bool :=
  it.status == "PENDING_UPLOAD" &&
    match it.expiresAt with
    | some e => strLt e expiredBefore
    | none => false

/-- The per-item deletion loop: tries to delete each listed item by its
key, skipping (only logging) failed deletions, and counts successes. -/
def deleteEach (delFails : StoredItem → Bool) :
    List StoredItem → Store → Store × Nat
  | [], store => (store, 0)
  | m :: ms, store =>
    if delFails m then deleteEach delFails ms store
    else
      let res := deleteEach delFails ms (deleteItem m.PK m.SK store)
      (res.1, res.2 + 1)

/-- `DynamoFileRepository.deleteExpiredPendingFiles`: queries the sparse
status+expiry index for expired `PENDING_UPLOAD` items and deletes them
one by one, then runs the bounded one-time legacy path — a `Scan` with
`Limit: 100` (DynamoDB applies the limit to items *scanned*, before the
filter) filtering `status = "PENDING_UPLOAD" AND
attribute_not_exists(expiresAt)` — deleting its matches too, and returns
the total count of successful deletions. -/
def DynamoFileRepository.deleteExpiredPendingFiles (delFails : StoredItem → Bool)
    (expiredBefore : String) (store : Store) : Store × Nat :=
  let hits := store.filter (expiredPendingMatch expiredBefore)
  let res1 := deleteEach delFails hits store
  let legacy := (res1.1.take 100).filter fun it =>
    it.status == "PENDING_UPLOAD" && it.expiresAt.isNone
  let res2 := deleteEach delFails legacy res1.1
  (res2.1, res1.2 + res2.2)

/-! ## S3 key construction and parsing

`extractFileIdFromKey`/`extractUserIdFromKey` live in the S3 event
handler (`apps/functions`); they invert the key layout
`{type}/{userId}/{yyyy}/{mm}/{dd}/{fileId}.{ext}`.  JavaScript's
`key.split("/")`, `lastIndexOf(".")`/`substring` are modelled on
character lists. -/

/-- `String.prototype.split` with a one-character separator. -/
def splitChar (sep : Char) : List Char → List (List Char)
  | [] => [[]]
  | c :: rest =>
    if c = sep then [] :: splitChar sep rest
    else
      match splitChar sep rest with
      | [] => [[c]]
      | h :: t => (c :: h) :: t

/-- The characters strictly before the last `'.'`, or `none` when there is
no dot (`lastIndexOf(".") === -1`). -/
def beforeLastDot : List Char → Option (List Char)
  | [] => none
  | c :: rest =>
    match beforeLastDot rest with
    | some tail => some (c :: tail)
    | none => if c = '.' then some [] else none

/-- The suffix starting at the last `'.'` (dot included), or `none` when
there is no dot (`fileName.substring(fileName.lastIndexOf("."))` guarded
by `fileName.includes(".")`). -/
def fromLastDot : List Char → Option (List Char)
  | [] => none
  | c :: rest =>
    match fromLastDot rest with
    | some tail => some tail
    | none => if c = '.' then some (c :: rest) else none

/-- `extractFileIdFromKey`: splits on `/`, requires at least 6 segments,
and returns the part of the last segment before its last dot. -/
def extractFileIdFromKey (key : String) : Option String :=
  let parts := splitChar '/' key.data
  if parts.length < 6 then none
  else (beforeLastDot (parts.getLastD [])).map String.mk

/-- `extractUserIdFromKey`: splits on `/`, requires at least 6 segments
and a `pdf` or `images` type prefix, and returns segment 1. -/
def extractUserIdFromKey (key : String) : Option String :=
  let parts := splitChar '/' key.data
  if parts.length < 6 then none
  else
    let p0 := parts.getD 0 []
    if p0 ≠ "pdf".data ∧ p0 ≠ "images".data then none
    else some (String.mk (parts.getD 1 []))

/-- Modelled from the spec: the four-argument Key Builder
`generateS3Key(fileType, userId, fileId, fileName)` of §4.3, whose
implementation is not present under `src/` — only its unit tests
(`packages/shared/src/__tests__/utils/aws.test.ts`) and its callers
(`PresignedUrlService`, `FileUploadService`) are.  (The three-argument
`generateS3Key` in `packages/shared/src/types/file.ts` is a superseded
snapshot producing `uploads/...` keys; the current services pass the
classified type and the current infrastructure filters the `pdf/` and
`images/` prefixes.)  Layout `{typePrefix}/{userId}/{yyyy}/{mm}/{dd}/
{fileId}{ext}` where `typePrefix` is `pdf` for the pdf type and `images`
otherwise, `ext` is the substring of `fileName` from its last dot, and a
dot-less `fileName` falls back to the type's canonical extension (`.pdf`
for pdf, `.jpg` otherwise).  The wall-clock date is abstracted into the
`year`/`month`/`day` parameters (the zero-padded decimal components). -/
def keyExtension (fileType fileName : String) : String :=
  match fromLastDot fileName.data with
  | some ext => String.mk ext
  | none => if fileType = "pdf" then ".pdf" else ".jpg"

/-- Modelled from the spec: the key layout of the four-argument Key
Builder (see `keyExtension`, and the comment there, for provenance and
the extension rule). -/
def generateS3Key (fileType userId fileId fileName : String)
    (year month day : String) : String :=
  let typePrefix := if fileType = "pdf" then "pdf" else "images"
  typePrefix ++ "/" ++ userId ++ "/" ++ year ++ "/" ++ month ++ "/" ++ day
    ++ "/" ++ fileId ++ keyExtension fileType fileName

example :
    generateS3Key "pdf" "user-123" "file-456" "document.pdf" "2024" "01" "15"
      = "pdf/user-123/2024/01/15/file-456.pdf" := by decide

example :
    generateS3Key "image" "user-123" "file-456" "image" "2024" "01" "15"
      = "images/user-123/2024/01/15/file-456.jpg" := by decide

example : extractFileIdFromKey "pdf/user-123/2024/01/15/file-456.pdf" = some "file-456" := by
  decide

example : extractUserIdFromKey "images/user-123/2024/01/15/file-456.jpg" = some "user-123" := by
  decide

example : extractUserIdFromKey "uploads/user-123/2024/01/15/file-456.pdf" = none := by
  decide

/-! ## URI decoding of the object key

The handler normalises each raw key with
`decodeURIComponent(record.s3.object.key.replace(/\+/g, " "))` *outside*
its per-record `try`/`catch`.  `decodeURIComponent` throws `URIError` on
a malformed escape.  The model covers the ASCII fragment: `%hh` with a
byte below `0x80` decodes to that character, a malformed escape yields
`none` (exactly the inputs on which JavaScript throws within this
fragment), and a non-ASCII escape is conservatively outside the model
(`none`); every key this development evaluates the handler on is plain
ASCII with no escapes. -/

/-- Value of one hexadecimal digit (`decodeURIComponent` accepts both
cases). -/
def hexDigitVal (c : Char) : Option Nat :=
  let n := c.toNat
  if 48 ≤ n ∧ n ≤ 57 then some (n - 48)
  else if 65 ≤ n ∧ n ≤ 70 then some (n - 55)
  else if 97 ≤ n ∧ n ≤ 102 then some (n - 87)
  else none

/-- Percent-decoding on the ASCII fragment; `none` models a thrown
`URIError`. -/
def percentDecodeAscii : List Char → Option (List Char)
  | [] => some []
  | '%' :: h1 :: h2 :: rest =>
    (match hexDigitVal h1, hexDigitVal h2 with
     | some a, some b =>
       if a * 16 + b < 128 then
         (percentDecodeAscii rest).map (Char.ofNat (a * 16 + b) :: ·)
       else none
     | _, _ => none)
  | '%' :: _ => none
  | c :: rest => (percentDecodeAscii rest).map (c :: ·)

/-- `key.replace(/\+/g, " ")`. -/
def plusToSpace (s : String) : String :=
  String.mk (s.data.map fun c => if c = '+' then ' ' else c)

/-- The handler's key normalisation
`decodeURIComponent(rawKey.replace(/\+/g, " "))`; `none` models the
uncaught `URIError`. -/
def normalizeKey (rawKey : String) : Option String :=
  (percentDecodeAscii (plusToSpace rawKey).data).map String.mk

/-! ## The Status Reconciler — the S3 event handler

`handler` in the S3-events function: iterates the batch, normalises each
key, skips non-`ObjectCreated:Put` events as successes, parses
`fileId`/`userId` from the key, resolves the record (`getFileById`, then
`getFile` as fallback), applies the status-check-before-write
idempotency rule, and transitions `PENDING_UPLOAD → UPLOADED` via
`updateFile`.  Per-event failures are pushed as `success: false` results
and the loop continues; after the loop the invocation throws iff any
event failed.  All `new Date().toISOString()` readings of one invocation
are abstracted into the `now` parameter.  The model additionally counts
the `updateFile` calls (`writes`) to observe effective status writes. -/

/-- One record of the incoming `S3Event` batch: its `eventName` and the
raw `s3.object.key`. -/
structure S3EventRecord where
  eventName : String
  objectKey : String
deriving Repr, DecidableEq

/-- One entry of the handler's `processedRecords` aggregation. -/
structure ProcessedRecord where
  key : String
  success : Bool
  error : Option String := none
deriving Repr, DecidableEq

/-- `!x` on a nullable string: `undefined`/`null` and `""` are falsy; the
handler rejects the parsed `fileId`/`userId` when either is falsy. -/
def jsTruthy : Option String → Option String
  | some v => if v = "" then none else some v
  | none => none

/-- The body of the handler's `try` block for one event, after key
normalisation: returns the pushed result, the table state after the
event, and how many `updateFile` writes it performed (0 or 1). -/
def processEvent (now : String) (store : Store) (eventName key : String) :
    ProcessedRecord × Store × Nat :=
  if eventName ≠ "ObjectCreated:Put" then
    (⟨key, true, none⟩, store, 0)
  else
    match jsTruthy (extractFileIdFromKey key), jsTruthy (extractUserIdFromKey key) with
    | some fileId, some userId =>
      (match (DynamoFileRepository.getFileById fileId store).orElse
          (fun _ => DynamoFileRepository.getFile fileId userId store) with
       | none =>
         (⟨key, false, some ("File record not found for fileId: " ++ fileId
            ++ ", userId: " ++ userId ++ ", key: " ++ key)⟩, store, 0)
       | some existingFile =>
         if existingFile.status = "UPLOADED" then
           (⟨key, true, none⟩, store, 0)
         else if existingFile.status ≠ "PENDING_UPLOAD" then
           (⟨key, false, some ("File " ++ fileId ++ " has unexpected status: "
              ++ existingFile.status ++ ", expected PENDING_UPLOAD")⟩, store, 0)
         else
           (⟨key, true, none⟩,
            DynamoFileRepository.updateFile fileId existingFile.userId
              { status := some "UPLOADED", uploadedAt := some now } now store,
            1))
    | _, _ =>
      (⟨key, false, some ("Failed to extract fileId or userId from key: " ++ key)⟩,
       store, 0)

/-- The handler's loop over `event.Records`.  The returned flag is true
when a key failed to normalise: that `URIError` is raised *outside* the
per-record `try`/`catch`, so it aborts the invocation — results of
earlier events are lost (never returned), their table writes persist,
and the remaining events are not processed. -/
def runRecords (now : String) :
    List S3EventRecord → Store → List ProcessedRecord × Store × Nat × Bool
  | [], store => ([], store, 0, false)
  | r :: rs, store =>
    match normalizeKey r.objectKey with
    | none => ([], store, 0, true)
    | some key =>
      let step := processEvent now store r.eventName key
      let rest := runRecords now rs step.2.1
      (step.1 :: rest.1, rest.2.1, step.2.2 + rest.2.2.1, rest.2.2.2)

/-- How one handler invocation terminates. -/
inductive HandlerResult
  | ok
  | batchError (failureCount total : Nat)
  | uriError
deriving Repr, DecidableEq

/-- Observable outcome of one handler invocation: final table state, the
aggregated per-event results, the termination mode, and the number of
`updateFile` writes performed. -/
structure HandlerOutcome where
  store : Store
  processed : List ProcessedRecord
  result : HandlerResult
  writes : Nat
deriving Repr, DecidableEq

/-- The S3 event `handler`: runs the loop, then throws
`Failed to process N out of M S3 event records` iff any event failed. -/
def s3Handler (now : String) (store : Store) (records : List S3EventRecord) :
    HandlerOutcome :=
  let run := runRecords now records store
  if run.2.2.2 then
    ⟨run.2.1, run.1, .uriError, run.2.2.1⟩
  else
    let failureCount := (run.1.filter fun p => !p.success).length
    if failureCount > 0 then
      ⟨run.2.1, run.1, .batchError failureCount run.1.length, run.2.2.1⟩
    else
      ⟨run.2.1, run.1, .ok, run.2.2.1⟩

/-! ## The Upload URL Issuer — `PresignedUrlService.generateUploadUrl`

Pure model of the service method.  Ambient effects are parameters:
`freshFileId` models `randomUUID()`, `now`/`expiresAt` the two
`toISOString()` readings, `year`/`month`/`day` the key builder's clock,
`epochMs` the ISO-to-epoch conversion used for the `ttl` attribute, and
`sign key contentType expiresIn` the `getSignedUrl` call (scoped to
exactly that key, content type and expiry). -/

/-- `File.IUploadRequest`. -/
structure IUploadRequest where
  fileName : String
  contentType : String
  size : Nat
deriving Repr, DecidableEq

/-- `File.IUploadResponse` (success envelope fields are optional because
the failure envelope omits them). -/
structure IUploadResponse where
  success : Bool
  error : Option String := none
  uploadUrl : Option String := none
  fileId : Option String := none
  expiresIn : Option Nat := none
  expiresAt : Option String := none
  maxSizeBytes : Option Nat := none
  method : Option String := none
deriving Repr, DecidableEq

/-- The string the classified type interpolates into the key builder call
(`TFileType` values are the strings `"pdf" | "image" | "unknown"`). -/
def TFileType.str : TFileType → String
  | .pdf => "pdf"
  | .image => "image"
  | .unknown => "unknown"

/-- `config.expirationSeconds || 300`: JavaScript `||` falls back on the
falsy `0` as well as on `undefined`. -/
def effectiveExpirationSeconds (cfg : Option Nat) : Nat :=
  match cfg with
  | some n => if n = 0 then 300 else n
  | none => 300

/-- `PresignedUrlService.generateUploadUrl`: classify, check the MIME
allow-list (case-insensitively), check the per-type size ceiling, and on
acceptance write the `PENDING_UPLOAD` record via `createFile` *before*
producing the signed URL.  Returns the table state after the call and the
response envelope. -/
def generateUploadUrl (store : Store) (request : IUploadRequest)
    (userId bucketName : String) (expirationSecondsCfg : Option Nat)
    (freshFileId now expiresAt year month day : String)
    (epochMs : String → Int) (sign : String → String → Nat → String) :
    Store × IUploadResponse :=
  let fileType := FileTypeDetector.detect request.contentType request.fileName
  if fileType = .unknown then
    (store, { success := false
              error := some ("Unsupported file type: " ++ request.contentType
                ++ ". Supported types: PDF, JPEG, PNG") })
  else
    let allowedTypes := FILE_CONSTANTS.ALLOWED_PDF_TYPES ++ FILE_CONSTANTS.ALLOWED_IMAGE_TYPES
    let normalizedContentType := asciiLower request.contentType
    if !(allowedTypes.any fun t => asciiLower t = normalizedContentType) then
      (store, { success := false
                error := some ("Unsupported MIME type: " ++ request.contentType
                  ++ ". Supported types: " ++ String.intercalate ", " allowedTypes) })
    else
      let maxSizeBytes :=
        if fileType = .pdf then FILE_CONSTANTS.MAX_PDF_SIZE_BYTES
        else FILE_CONSTANTS.MAX_IMAGE_SIZE_BYTES
      if request.size > maxSizeBytes then
        (store, { success := false
                  error := some ("File size " ++ mbToFixed2 request.size
                    ++ "MB exceeds maximum allowed size of " ++ mbToFixed2 maxSizeBytes
                    ++ "MB for " ++ (if fileType = .pdf then "PDFs" else "images")) })
      else
        let key := generateS3Key fileType.str userId freshFileId request.fileName year month day
        let expirationSeconds := effectiveExpirationSeconds expirationSecondsCfg
        let file : IFile :=
          { fileId := freshFileId
            userId := userId
            fileName := request.fileName
            mimeType := request.contentType
            sizeBytes := request.size
            status := "PENDING_UPLOAD"
            s3Bucket := bucketName
            s3Key := key
            createdAt := now
            updatedAt := now
            expiresAt := some expiresAt }
        let store' := DynamoFileRepository.createFile epochMs now file store
        let uploadUrl := sign key request.contentType expirationSeconds
        (store', { success := true
                   uploadUrl := some uploadUrl
                   fileId := some freshFileId
                   expiresIn := some expirationSeconds
                   expiresAt := some expiresAt
                   maxSizeBytes := some maxSizeBytes
                   method := some "PUT" })

/-- The effect of the reconciler's `updateFile` call on the matched item:
`status := "UPLOADED"`, `uploadedAt := now`, and the always-refreshed
`updatedAt := now`; every other attribute (including `expiresAt`/`ttl`)
is untouched. -/
def uploadTransition (now : String) (it : StoredItem) : StoredItem :=
  { it with status := "UPLOADED", uploadedAt := some now, updatedAt := now }

/-! ## General store lemmas -/

lemma keyMatches_self (it : StoredItem) : keyMatches it.PK it.SK it = true := by
  simp [keyMatches]

lemma keyMatches_other (pk sk : String) (item : StoredItem)
    (hne : ¬(pk = item.PK ∧ sk = item.SK)) : keyMatches pk sk item = false := by
  simp only [keyMatches, Bool.and_eq_false_iff, beq_eq_false_iff_ne, ne_eq]
  rcases not_and_or.mp hne with h | h
  · exact Or.inl fun hc => h hc.symm
  · exact Or.inr fun hc => h hc.symm

lemma find?_map_replace (pk sk : String) (item : StoredItem) (store : Store)
    (h : store.any (keyMatches pk sk) = true) (hit : keyMatches pk sk item = true) :
    (store.map fun it => if keyMatches pk sk it then item else it).find? (keyMatches pk sk)
      = some item := by
  induction store with
  | nil => simp at h
  | cons hd tl ih =>
    by_cases hhd : keyMatches pk sk hd = true
    · simp [hhd, List.find?_cons, hit]
    · rw [List.any_cons] at h
      simp only [hhd, Bool.false_or] at h
      simp [hhd, List.find?_cons, ih h]

lemma find?_append_single (p : StoredItem → Bool) (store : Store) (item : StoredItem)
    (hit : p item = true) :
    (store ++ [item]).find? p = (store.find? p).getD item := by
  rw [List.find?_append]
  cases hfind : store.find? p with
  | none => simp [List.find?_cons, hit]
  | some x => simp

lemma getItem_putItem_self (item : StoredItem) (store : Store) :
    getItem item.PK item.SK (putItem item store) = some item := by
  unfold putItem getItem
  by_cases h : store.any (keyMatches item.PK item.SK) = true
  · simp only [h, if_true]
    exact find?_map_replace _ _ _ _ h (keyMatches_self item)
  · have hb : store.any (keyMatches item.PK item.SK) = false := by simpa using h
    simp only [hb, Bool.false_eq_true, if_false]
    rw [find?_append_single _ _ _ (keyMatches_self item)]
    have hnone : store.find? (keyMatches item.PK item.SK) = none := by
      rw [List.find?_eq_none]
      intro x hx hpx
      exact absurd (List.any_eq_true.mpr ⟨x, hx, hpx⟩) (by simpa using h)
    simp [hnone]

lemma find?_map_invariant {α : Type} (p : α → Bool) (f : α → α) (l : List α)
    (h : ∀ x ∈ l, p (f x) = p x ∧ (p x = true → f x = x)) :
    (l.map f).find? p = l.find? p := by
  induction l with
  | nil => rfl
  | cons hd tl ih =>
    obtain ⟨h1, h2⟩ := h hd (by simp)
    simp only [List.map_cons, List.find?_cons, h1]
    by_cases hp : p hd = true
    · simp [hp, h2 hp]
    · simp only [Bool.not_eq_true] at hp
      simp only [hp]
      exact ih fun x hx => h x (by simp [hx])

lemma getItem_putItem_other (pk sk : String) (item : StoredItem) (store : Store)
    (hne : ¬(pk = item.PK ∧ sk = item.SK)) :
    getItem pk sk (putItem item store) = getItem pk sk store := by
  unfold putItem getItem
  by_cases h : store.any (keyMatches item.PK item.SK) = true
  · simp only [h, if_true]
    apply find?_map_invariant
    intro x _
    by_cases hx : keyMatches item.PK item.SK x = true
    · have hxPK : x.PK = item.PK := (beq_iff_eq ..).mp ((Bool.and_eq_true _ _).mp hx).1
      have hxSK : x.SK = item.SK := (beq_iff_eq ..).mp ((Bool.and_eq_true _ _).mp hx).2
      have hpx : keyMatches pk sk x = false := by
        apply keyMatches_other
        rw [hxPK, hxSK]; exact hne
      constructor
      · simp [hx, hpx, keyMatches_other pk sk item hne]
      · intro hc; rw [hpx] at hc; cases hc
    · simp only [Bool.not_eq_true] at hx
      simp [hx]
  · have hb : store.any (keyMatches item.PK item.SK) = false := by simpa using h
    simp only [hb, Bool.false_eq_true, if_false]
    rw [List.find?_append]
    have : List.find? (keyMatches pk sk) [item] = none := by
      simp [List.find?_cons, keyMatches_other pk sk item hne]
    rw [this]
    cases store.find? (keyMatches pk sk) <;> simp

/-! ## Claim theorems: classifier and validator -/

/-- C8: for every (mimeType, fileName) pair, `FileTypeDetector.detect`
returns exactly one of pdf/image/unknown; it returns pdf iff the lowered
MIME type contains "pdf" or the lowered file name ends in ".pdf",
otherwise image iff the lowered MIME type starts with "image/" or the
lowered file name has one of the extensions jpg/jpeg/png/gif/webp/svg,
otherwise unknown; and it is case-insensitive (it depends only on the
lower-cased inputs).  It is a total function by construction (no failure
conditions). -/
theorem detect_total_and_rules (contentType fileName : String) :
    (FileTypeDetector.detect contentType fileName = .pdf
      ∨ FileTypeDetector.detect contentType fileName = .image
      ∨ FileTypeDetector.detect contentType fileName = .unknown)
    ∧ (FileTypeDetector.detect contentType fileName = .pdf ↔
        (strContains (asciiLower contentType) "pdf"
          || strEndsWith (asciiLower fileName) ".pdf") = true)
    ∧ (FileTypeDetector.detect contentType fileName = .image ↔
        ((strContains (asciiLower contentType) "pdf"
            || strEndsWith (asciiLower fileName) ".pdf") = false
          ∧ (strStartsWith (asciiLower contentType) "image/"
              || imageExtensions.any fun e => strEndsWith (asciiLower fileName) ("." ++ e))
              = true))
    ∧ (FileTypeDetector.detect contentType fileName = .unknown ↔
        ((strContains (asciiLower contentType) "pdf"
            || strEndsWith (asciiLower fileName) ".pdf") = false
          ∧ (strStartsWith (asciiLower contentType) "image/"
              || imageExtensions.any fun e => strEndsWith (asciiLower fileName) ("." ++ e))
              = false))
    ∧ (∀ ct fn, asciiLower ct = asciiLower contentType → asciiLower fn = asciiLower fileName →
        FileTypeDetector.detect ct fn = FileTypeDetector.detect contentType fileName) := by
  refine ⟨?_, ?_, ?_, ?_, fun ct fn hct hfn => by
    simp only [FileTypeDetector.detect, hct, hfn]⟩
  all_goals
    simp only [FileTypeDetector.detect]
    cases hA : (strContains (asciiLower contentType) "pdf"
        || strEndsWith (asciiLower fileName) ".pdf") <;>
      cases hB : (strStartsWith (asciiLower contentType) "image/"
          || imageExtensions.any fun e => strEndsWith (asciiLower fileName) ("." ++ e)) <;>
      simp [hA, hB]

/-- C8 witness: the theorem applied at the spec's four example inputs. -/
theorem detect_total_and_rules_witness :
    FileTypeDetector.detect "APPLICATION/PDF" "x" = .pdf
    ∧ FileTypeDetector.detect "unknown/type" "a.PDF" = .pdf
    ∧ FileTypeDetector.detect "image/png" "x" = .image
    ∧ FileTypeDetector.detect "text/plain" "x.txt" = .unknown :=
  ⟨(detect_total_and_rules "APPLICATION/PDF" "x").2.1.mpr (by decide),
   (detect_total_and_rules "unknown/type" "a.PDF").2.1.mpr (by decide),
   (detect_total_and_rules "image/png" "x").2.2.1.mpr (by decide),
   (detect_total_and_rules "text/plain" "x.txt").2.2.2.1.mpr (by decide)⟩

/-- C6: for the PDF ceiling of 10,485,760 bytes, `ValidateFileSize.validate`
accepts a size exactly equal to the ceiling, rejects ceiling+1, and every
rejection message is exactly the template reporting the offending size and
the ceiling, each rendered by the two-decimal-place MB formatter. -/
theorem validate_pdf_boundary :
    (ValidateFileSize.validate FILE_CONSTANTS.MAX_PDF_SIZE_BYTES 10485760).valid = true
    ∧ (ValidateFileSize.validate FILE_CONSTANTS.MAX_PDF_SIZE_BYTES 10485761).valid = false
    ∧ mbToFixed2 10485761 = "10.00"
    ∧ mbToFixed2 FILE_CONSTANTS.MAX_PDF_SIZE_BYTES = "10.00"
    ∧ ∀ size, FILE_CONSTANTS.MAX_PDF_SIZE_BYTES < size →
        ValidateFileSize.validate FILE_CONSTANTS.MAX_PDF_SIZE_BYTES size =
          { valid := false
            error := some ("File size " ++ mbToFixed2 size
              ++ "MB exceeds maximum allowed size of "
              ++ mbToFixed2 FILE_CONSTANTS.MAX_PDF_SIZE_BYTES ++ "MB") } := by
  refine ⟨by decide, by decide, by decide, by decide, ?_⟩
  intro size h
  simp [ValidateFileSize.validate, h]

/-- C6 witness: the rejection branch applied at an 11 MB input produces the
message containing "11.00MB" and "10.00MB". -/
theorem validate_pdf_boundary_witness :
    ValidateFileSize.validate FILE_CONSTANTS.MAX_PDF_SIZE_BYTES 11534336 =
      { valid := false
        error := some "File size 11.00MB exceeds maximum allowed size of 10.00MB" } :=
  (validate_pdf_boundary.2.2.2.2 11534336 (by decide)).trans (by decide)

/-! ## Claim theorems: createFile semantics and the expiry-field bug -/

/-- C10: `createFile` never fails and is an unconditional full-item
replacement.  For every prior table state — in particular one already
holding an item under the same `(USER#userId, FILE#fileId)` key — the item
found at that key afterwards is exactly `itemOfFile` of the new record, a
function of the new record alone (no duplicate-key rejection, no merging
with the previous item's fields), and every other key is untouched.  The
source issues its `PutCommand` with no `ConditionExpression`, which is
exactly DynamoDB's silent last-write-wins replacement. -/
theorem createFile_last_write_wins (epochMs : String → Int) (now : String) (f : IFile)
    (store : Store) :
    getItem (userPK f.userId) (fileSK f.fileId)
        (DynamoFileRepository.createFile epochMs now f store)
      = some (DynamoFileRepository.itemOfFile epochMs now f)
    ∧ DynamoFileRepository.getFile f.fileId f.userId
        (DynamoFileRepository.createFile epochMs now f store)
      = some (DynamoFileRepository.fileOfItem (DynamoFileRepository.itemOfFile epochMs now f))
    ∧ ∀ pk sk, ¬(pk = userPK f.userId ∧ sk = fileSK f.fileId) →
        getItem pk sk (DynamoFileRepository.createFile epochMs now f store)
          = getItem pk sk store := by
  have hPK : (DynamoFileRepository.itemOfFile epochMs now f).PK = userPK f.userId := rfl
  have hSK : (DynamoFileRepository.itemOfFile epochMs now f).SK = fileSK f.fileId := rfl
  refine ⟨?_, ?_, ?_⟩
  · have := getItem_putItem_self (DynamoFileRepository.itemOfFile epochMs now f) store
    rw [hPK, hSK] at this
    exact this
  · unfold DynamoFileRepository.getFile
    have := getItem_putItem_self (DynamoFileRepository.itemOfFile epochMs now f) store
    rw [hPK, hSK] at this
    rw [DynamoFileRepository.createFile, this]
    rfl
  · intro pk sk hne
    have := getItem_putItem_other pk sk (DynamoFileRepository.itemOfFile epochMs now f) store
      (by rw [hPK, hSK]; exact hne)
    exact this

/-- C10 witness: overwriting an occupied key on a concrete one-item table —
the key now holds exactly the translation of the new record, and an
unrelated key is unchanged. -/
theorem createFile_last_write_wins_witness :
    (getItem (userPK "u1") (fileSK "f1")
        (DynamoFileRepository.createFile (fun _ => 0) "T1"
          { fileId := "f1", userId := "u1", fileName := "new.pdf"
            mimeType := "application/pdf", sizeBytes := 2, status := "PENDING_UPLOAD"
            s3Bucket := "b", s3Key := "k2", createdAt := "T1", updatedAt := "T1" }
          [{ PK := "USER#u1", SK := "FILE#f1", fileId := "f1", userId := "u1"
             fileName := "old.pdf", mimeType := "application/pdf", sizeBytes := 1
             status := "UPLOADED", s3Bucket := "b", s3Key := "k1", createdAt := "T0"
             updatedAt := "T0", uploadedAt := some "T0", expiresAt := none, ttl := none }])
      = some (DynamoFileRepository.itemOfFile (fun _ => 0) "T1"
          { fileId := "f1", userId := "u1", fileName := "new.pdf"
            mimeType := "application/pdf", sizeBytes := 2, status := "PENDING_UPLOAD"
            s3Bucket := "b", s3Key := "k2", createdAt := "T1", updatedAt := "T1" }))
    ∧ (getItem "USER#u2" "FILE#f2"
        (DynamoFileRepository.createFile (fun _ => 0) "T1"
          { fileId := "f1", userId := "u1", fileName := "new.pdf"
            mimeType := "application/pdf", sizeBytes := 2, status := "PENDING_UPLOAD"
            s3Bucket := "b", s3Key := "k2", createdAt := "T1", updatedAt := "T1" }
          [{ PK := "USER#u1", SK := "FILE#f1", fileId := "f1", userId := "u1"
             fileName := "old.pdf", mimeType := "application/pdf", sizeBytes := 1
             status := "UPLOADED", s3Bucket := "b", s3Key := "k1", createdAt := "T0"
             updatedAt := "T0", uploadedAt := some "T0", expiresAt := none, ttl := none }])
      = getItem "USER#u2" "FILE#f2"
          [{ PK := "USER#u1", SK := "FILE#f1", fileId := "f1", userId := "u1"
             fileName := "old.pdf", mimeType := "application/pdf", sizeBytes := 1
             status := "UPLOADED", s3Bucket := "b", s3Key := "k1", createdAt := "T0"
             updatedAt := "T0", uploadedAt := some "T0", expiresAt := none, ttl := none }]) :=
  by
  have h := createFile_last_write_wins (fun _ => 0) "T1"
    { fileId := "f1", userId := "u1", fileName := "new.pdf"
      mimeType := "application/pdf", sizeBytes := 2, status := "PENDING_UPLOAD"
      s3Bucket := "b", s3Key := "k2", createdAt := "T1", updatedAt := "T1" }
    [{ PK := "USER#u1", SK := "FILE#f1", fileId := "f1", userId := "u1"
       fileName := "old.pdf", mimeType := "application/pdf", sizeBytes := 1
       status := "UPLOADED", s3Bucket := "b", s3Key := "k1", createdAt := "T0"
       updatedAt := "T0", uploadedAt := some "T0", expiresAt := none, ttl := none }]
  exact ⟨h.1, h.2.2 "USER#u2" "FILE#f2" (by decide)⟩

/-- C3 (bug exhibit): a record created `PENDING_UPLOAD` with an expiry
(so `createFile` stamps `expiresAt` and the DynamoDB-TTL attribute `ttl`)
and then transitioned by the Status Reconciler still carries *both* expiry
fields in the `UPLOADED` state: the reconciler's `updateFile` only `SET`s
`status`/`uploadedAt`/`updatedAt` and never `REMOVE`s `expiresAt` or
`ttl`.  Since the table enables TTL on the `ttl` attribute
(`infra/storage`), the completed upload's metadata remains scheduled for
automatic deletion at `urlExpiresAt + 48h`, contradicting the documented
intent that TTL-based deletion applies only to `PENDING_UPLOAD` files. -/
theorem uploaded_record_keeps_expiry_fields :
    DynamoFileRepository.getFile "f1" "u1"
      (s3Handler "T2"
        (DynamoFileRepository.createFile (fun _ => 1705312500000) "T0"
          { fileId := "f1", userId := "u1", fileName := "doc.pdf"
            mimeType := "application/pdf", sizeBytes := 1048576
            status := "PENDING_UPLOAD", s3Bucket := "b"
            s3Key := "pdf/u1/2024/01/15/f1.pdf", createdAt := "T0", updatedAt := "T0"
            expiresAt := some "2024-01-15T10:05:00.000Z" } [])
        [{ eventName := "ObjectCreated:Put", objectKey := "pdf/u1/2024/01/15/f1.pdf" }]).store
      = some
        { fileId := "f1", userId := "u1", fileName := "doc.pdf"
          mimeType := "application/pdf", sizeBytes := 1048576
          status := "UPLOADED", s3Bucket := "b"
          s3Key := "pdf/u1/2024/01/15/f1.pdf", createdAt := "T0", updatedAt := "T2"
          uploadedAt := some "T2", expiresAt := some "2024-01-15T10:05:00.000Z"
          ttl := some 1705485300 } := by
  decide

/-! ## Claim theorems: the Upload URL Issuer -/

/-- C7: whenever the issuance request is rejected by classification or
validation — unknown classified type, MIME type outside the allow-list, or
size above the applicable ceiling — `generateUploadUrl` returns the
failure envelope immediately with the table unchanged (no record written)
and no signed URL or fileId in the response. -/
theorem issuer_rejection_no_side_effects (store : Store) (request : IUploadRequest)
    (userId bucketName : String) (cfg : Option Nat)
    (freshFileId now expiresAt year month day : String)
    (epochMs : String → Int) (sign : String → String → Nat → String)
    (hrej : FileTypeDetector.detect request.contentType request.fileName = .unknown
      ∨ ¬((FILE_CONSTANTS.ALLOWED_PDF_TYPES ++ FILE_CONSTANTS.ALLOWED_IMAGE_TYPES).any
            fun t => asciiLower t = asciiLower request.contentType) = true
      ∨ request.size >
          (if FileTypeDetector.detect request.contentType request.fileName = .pdf
            then FILE_CONSTANTS.MAX_PDF_SIZE_BYTES
            else FILE_CONSTANTS.MAX_IMAGE_SIZE_BYTES)) :
    ∃ msg, generateUploadUrl store request userId bucketName cfg freshFileId now expiresAt
        year month day epochMs sign
      = (store, { success := false, error := some msg }) := by
  simp only [generateUploadUrl]
  by_cases h1 : FileTypeDetector.detect request.contentType request.fileName = .unknown
  · rw [if_pos h1]; exact ⟨_, rfl⟩
  rw [if_neg h1]
  by_cases h2 : (!((FILE_CONSTANTS.ALLOWED_PDF_TYPES ++ FILE_CONSTANTS.ALLOWED_IMAGE_TYPES).any
      fun t => asciiLower t = asciiLower request.contentType)) = true
  · rw [if_pos h2]; exact ⟨_, rfl⟩
  rw [if_neg h2]
  have h3 : request.size >
      (if FileTypeDetector.detect request.contentType request.fileName = .pdf
        then FILE_CONSTANTS.MAX_PDF_SIZE_BYTES else FILE_CONSTANTS.MAX_IMAGE_SIZE_BYTES) := by
    rcases hrej with h | h | h
    · exact absurd h h1
    · exfalso
      cases hb : ((FILE_CONSTANTS.ALLOWED_PDF_TYPES ++ FILE_CONSTANTS.ALLOWED_IMAGE_TYPES).any
          fun t => asciiLower t = asciiLower request.contentType) with
      | false => exact h2 (by rw [hb]; rfl)
      | true => exact h hb
    · exact h
  rw [if_pos h3]
  exact ⟨_, rfl⟩

/-- C7 witness: a concrete rejected request (`text/plain`, classified
unknown) against a concrete non-empty table returns a failure envelope and
leaves the table exactly as it was. -/
theorem issuer_rejection_no_side_effects_witness :
    ∃ msg, generateUploadUrl
        [{ PK := "USER#u1", SK := "FILE#f1", fileId := "f1", userId := "u1"
           fileName := "old.pdf", mimeType := "application/pdf", sizeBytes := 1
           status := "UPLOADED", s3Bucket := "b", s3Key := "k1", createdAt := "T0"
           updatedAt := "T0", uploadedAt := some "T0", expiresAt := none, ttl := none }]
        { fileName := "x.txt", contentType := "text/plain", size := 5 }
        "u1" "bucket" none "fresh" "T1" "T2" "2024" "01" "15"
        (fun _ => 0) (fun _ _ _ => "signed-url")
      = ([{ PK := "USER#u1", SK := "FILE#f1", fileId := "f1", userId := "u1"
            fileName := "old.pdf", mimeType := "application/pdf", sizeBytes := 1
            status := "UPLOADED", s3Bucket := "b", s3Key := "k1", createdAt := "T0"
            updatedAt := "T0", uploadedAt := some "T0", expiresAt := none, ttl := none }],
         { success := false, error := some msg }) :=
  issuer_rejection_no_side_effects _
    { fileName := "x.txt", contentType := "text/plain", size := 5 }
    "u1" "bucket" none "fresh" "T1" "T2" "2024" "01" "15"
    (fun _ => 0) (fun _ _ _ => "signed-url") (Or.inl (by decide))

/-! ## Claim theorems: the expiry sweep -/

lemma deleteEach_eq (delFails : StoredItem → Bool) (ms : List StoredItem) (store : Store) :
    deleteEach delFails ms store
      = (store.filter fun it => !(ms.any fun m => !delFails m && keyMatches m.PK m.SK it),
         (ms.filter fun m => !delFails m).length) := by
  induction ms generalizing store with
  | nil => simp [deleteEach]
  | cons m ms ih =>
    simp only [deleteEach]
    by_cases hm : delFails m = true
    · rw [if_pos hm, ih]
      refine congrArg₂ Prod.mk ?_ ?_
      · apply List.filter_congr
        intro it _
        simp [List.any_cons, hm]
      · simp [List.filter_cons, hm]
    · have hm' : delFails m = false := by simpa using hm
      rw [if_neg hm]
      unfold deleteItem
      rw [ih]
      refine congrArg₂ Prod.mk ?_ ?_
      · rw [List.filter_filter]
        apply List.filter_congr
        intro it _
        simp [List.any_cons, hm', Bool.not_or, Bool.and_comm]
      · simp [List.filter_cons, hm']

/-- C9: on a table whose `PENDING_UPLOAD` records all carry `expiresAt`
(so the legacy no-`expiresAt` scan finds nothing) and whose keys are
unambiguous, the sweep deletes exactly the `PENDING_UPLOAD` records with
`expiresAt` strictly before the threshold whose individual deletion does
not fail, leaves `UPLOADED` records and not-yet-expired `PENDING_UPLOAD`
records untouched, continues past individual deletion failures, and
returns the count of successful deletions. -/
theorem sweep_selectivity (delFails : StoredItem → Bool) (expiredBefore : String)
    (store : Store)
    (hpend : ∀ it ∈ store, it.status = "PENDING_UPLOAD" → it.expiresAt ≠ none)
    (hkeys : ∀ it1 ∈ store, ∀ it2 ∈ store, it1.PK = it2.PK → it1.SK = it2.SK → it1 = it2) :
    DynamoFileRepository.deleteExpiredPendingFiles delFails expiredBefore store
      = (store.filter fun it => !(expiredPendingMatch expiredBefore it && !delFails it),
         (store.filter fun it => expiredPendingMatch expiredBefore it && !delFails it).length)
    ∧ (∀ it ∈ store, it.status = "UPLOADED" →
        it ∈ (DynamoFileRepository.deleteExpiredPendingFiles delFails expiredBefore store).1)
    ∧ (∀ it ∈ store, expiredPendingMatch expiredBefore it = false →
        it ∈ (DynamoFileRepository.deleteExpiredPendingFiles delFails expiredBefore store).1)
    ∧ (∀ it ∈ store, expiredPendingMatch expiredBefore it = true → delFails it = false →
        it ∉ (DynamoFileRepository.deleteExpiredPendingFiles delFails expiredBefore store).1) := by
  have hany : ∀ it ∈ store,
      ((store.filter (expiredPendingMatch expiredBefore)).any
          fun m => !delFails m && keyMatches m.PK m.SK it)
        = (expiredPendingMatch expiredBefore it && !delFails it) := by
    intro it hit
    by_cases hx : expiredPendingMatch expiredBefore it = true ∧ delFails it = false
    · rw [hx.1, hx.2]
      apply List.any_eq_true.mpr
      exact ⟨it, List.mem_filter.mpr ⟨hit, hx.1⟩, by simp [hx.2, keyMatches_self]⟩
    · have hrhs : (expiredPendingMatch expiredBefore it && !delFails it) = false := by
        cases he : expiredPendingMatch expiredBefore it <;>
          cases hd : delFails it <;> simp_all
      rw [hrhs]
      cases hax : ((store.filter (expiredPendingMatch expiredBefore)).any
          fun m => !delFails m && keyMatches m.PK m.SK it) with
      | false => rfl
      | true =>
      exfalso
      obtain ⟨m, hmm, hmp⟩ := List.any_eq_true.mp hax
      obtain ⟨hdf, hkm⟩ := (Bool.and_eq_true _ _).mp hmp
      obtain ⟨hmstore, hmexp⟩ := List.mem_filter.mp hmm
      have hPK : it.PK = m.PK := (beq_iff_eq ..).mp ((Bool.and_eq_true _ _).mp hkm).1
      have hSK : it.SK = m.SK := (beq_iff_eq ..).mp ((Bool.and_eq_true _ _).mp hkm).2
      have : m = it := hkeys m hmstore it hit hPK.symm hSK.symm
      subst this
      exact hx ⟨hmexp, by simpa using hdf⟩
  have hmain : DynamoFileRepository.deleteExpiredPendingFiles delFails expiredBefore store
      = (store.filter fun it => !(expiredPendingMatch expiredBefore it && !delFails it),
         (store.filter fun it => expiredPendingMatch expiredBefore it && !delFails it).length) := by
    have hstore1 : (store.filter fun it =>
          !((store.filter (expiredPendingMatch expiredBefore)).any
              fun m => !delFails m && keyMatches m.PK m.SK it))
        = store.filter fun it => !(expiredPendingMatch expiredBefore it && !delFails it) := by
      apply List.filter_congr
      intro it hit
      rw [hany it hit]
    have hcount : (((store.filter (expiredPendingMatch expiredBefore)).filter
          fun m => !delFails m).length)
        = (store.filter fun it => expiredPendingMatch expiredBefore it && !delFails it).length := by
      rw [List.filter_filter]
      apply congrArg
      apply List.filter_congr
      intro it _
      rw [Bool.and_comm]
    have hlegacy : ((store.filter fun it =>
            !(expiredPendingMatch expiredBefore it && !delFails it)).take 100).filter
          (fun it => it.status == "PENDING_UPLOAD" && it.expiresAt.isNone) = [] := by
      apply List.filter_eq_nil_iff.mpr
      intro it hit
      have hit' : it ∈ store :=
        (List.mem_filter.mp (List.mem_of_mem_take hit)).1
      intro hcontra
      obtain ⟨hs, hn⟩ := (Bool.and_eq_true _ _).mp hcontra
      have hstat : it.status = "PENDING_UPLOAD" := (beq_iff_eq ..).mp hs
      have : it.expiresAt = none := by simpa [Option.isNone_iff_eq_none] using hn
      exact hpend it hit' hstat this
    have e1 := deleteEach_eq delFails (store.filter (expiredPendingMatch expiredBefore)) store
    rw [hstore1, hcount] at e1
    simp only [DynamoFileRepository.deleteExpiredPendingFiles, e1, hlegacy]
    simp [deleteEach]
  refine ⟨hmain, ?_, ?_, ?_⟩
  · intro it hit hstat
    rw [hmain]
    apply List.mem_filter.mpr
    refine ⟨hit, ?_⟩
    have : expiredPendingMatch expiredBefore it = false := by
      simp [expiredPendingMatch, hstat]
    simp [this]
  · intro it hit hexp
    rw [hmain]
    exact List.mem_filter.mpr ⟨hit, by simp [hexp]⟩
  · intro it hit hexp hdel
    rw [hmain]
    intro hc
    have := (List.mem_filter.mp hc).2
    rw [hexp, hdel] at this
    simp at this

/-- C9 witness: a concrete table with an expired pending record (deleted
and counted), an expired pending record whose deletion fails (kept, not
counted), a not-yet-expired pending record and an `UPLOADED` record (both
untouched); the sweep returns 1. -/
theorem sweep_selectivity_witness :
    DynamoFileRepository.deleteExpiredPendingFiles (fun it => it.fileId == "f2")
      "2024-01-15T00:00:00.000Z"
      [{ PK := "USER#u1", SK := "FILE#f1", fileId := "f1", userId := "u1"
         fileName := "a.pdf", mimeType := "application/pdf", sizeBytes := 1
         status := "PENDING_UPLOAD", s3Bucket := "b", s3Key := "k1", createdAt := "T0"
         updatedAt := "T0", uploadedAt := none
         expiresAt := some "2024-01-10T00:00:00.000Z", ttl := some 100 },
       { PK := "USER#u1", SK := "FILE#f2", fileId := "f2", userId := "u1"
         fileName := "b.pdf", mimeType := "application/pdf", sizeBytes := 1
         status := "PENDING_UPLOAD", s3Bucket := "b", s3Key := "k2", createdAt := "T0"
         updatedAt := "T0", uploadedAt := none
         expiresAt := some "2024-01-10T00:00:00.000Z", ttl := some 100 },
       { PK := "USER#u1", SK := "FILE#f3", fileId := "f3", userId := "u1"
         fileName := "c.pdf", mimeType := "application/pdf", sizeBytes := 1
         status := "PENDING_UPLOAD", s3Bucket := "b", s3Key := "k3", createdAt := "T0"
         updatedAt := "T0", uploadedAt := none
         expiresAt := some "2024-02-01T00:00:00.000Z", ttl := some 100 },
       { PK := "USER#u1", SK := "FILE#f4", fileId := "f4", userId := "u1"
         fileName := "d.pdf", mimeType := "application/pdf", sizeBytes := 1
         status := "UPLOADED", s3Bucket := "b", s3Key := "k4", createdAt := "T0"
         updatedAt := "T1", uploadedAt := some "T1", expiresAt := none, ttl := none }]
      = ([{ PK := "USER#u1", SK := "FILE#f2", fileId := "f2", userId := "u1"
            fileName := "b.pdf", mimeType := "application/pdf", sizeBytes := 1
            status := "PENDING_UPLOAD", s3Bucket := "b", s3Key := "k2", createdAt := "T0"
            updatedAt := "T0", uploadedAt := none
            expiresAt := some "2024-01-10T00:00:00.000Z", ttl := some 100 },
          { PK := "USER#u1", SK := "FILE#f3", fileId := "f3", userId := "u1"
            fileName := "c.pdf", mimeType := "application/pdf", sizeBytes := 1
            status := "PENDING_UPLOAD", s3Bucket := "b", s3Key := "k3", createdAt := "T0"
            updatedAt := "T0", uploadedAt := none
            expiresAt := some "2024-02-01T00:00:00.000Z", ttl := some 100 },
          { PK := "USER#u1", SK := "FILE#f4", fileId := "f4", userId := "u1"
            fileName := "d.pdf", mimeType := "application/pdf", sizeBytes := 1
            status := "UPLOADED", s3Bucket := "b", s3Key := "k4", createdAt := "T0"
            updatedAt := "T1", uploadedAt := some "T1", expiresAt := none, ttl := none }],
         1) := by
  have h := sweep_selectivity (fun it => it.fileId == "f2") "2024-01-15T00:00:00.000Z"
    [{ PK := "USER#u1", SK := "FILE#f1", fileId := "f1", userId := "u1"
       fileName := "a.pdf", mimeType := "application/pdf", sizeBytes := 1
       status := "PENDING_UPLOAD", s3Bucket := "b", s3Key := "k1", createdAt := "T0"
       updatedAt := "T0", uploadedAt := none
       expiresAt := some "2024-01-10T00:00:00.000Z", ttl := some 100 },
     { PK := "USER#u1", SK := "FILE#f2", fileId := "f2", userId := "u1"
       fileName := "b.pdf", mimeType := "application/pdf", sizeBytes := 1
       status := "PENDING_UPLOAD", s3Bucket := "b", s3Key := "k2", createdAt := "T0"
       updatedAt := "T0", uploadedAt := none
       expiresAt := some "2024-01-10T00:00:00.000Z", ttl := some 100 },
     { PK := "USER#u1", SK := "FILE#f3", fileId := "f3", userId := "u1"
       fileName := "c.pdf", mimeType := "application/pdf", sizeBytes := 1
       status := "PENDING_UPLOAD", s3Bucket := "b", s3Key := "k3", createdAt := "T0"
       updatedAt := "T0", uploadedAt := none
       expiresAt := some "2024-02-01T00:00:00.000Z", ttl := some 100 },
     { PK := "USER#u1", SK := "FILE#f4", fileId := "f4", userId := "u1"
       fileName := "d.pdf", mimeType := "application/pdf", sizeBytes := 1
       status := "UPLOADED", s3Bucket := "b", s3Key := "k4", createdAt := "T0"
       updatedAt := "T1", uploadedAt := some "T1", expiresAt := none, ttl := none }]
    (by decide) (by decide)
  exact h.1.trans (by decide)

/-! ## Claim theorems: the key round-trip -/

lemma splitChar_of_not_mem {sep : Char} {cs : List Char} (h : sep ∉ cs) :
    splitChar sep cs = [cs] := by
  induction cs with
  | nil => rfl
  | cons c cs ih =>
    have hc : c ≠ sep := fun hcc => h (hcc ▸ List.mem_cons_self c cs)
    have hcs : sep ∉ cs := fun hcc => h (List.mem_cons_of_mem c hcc)
    simp only [splitChar]
    rw [if_neg hc, ih hcs]

lemma splitChar_append {sep : Char} {xs : List Char} (ys : List Char) (h : sep ∉ xs) :
    splitChar sep (xs ++ sep :: ys) = xs :: splitChar sep ys := by
  induction xs with
  | nil => simp [splitChar]
  | cons x xs ih =>
    have hx : x ≠ sep := fun hcc => h (hcc ▸ List.mem_cons_self x xs)
    have hxs : sep ∉ xs := fun hcc => h (List.mem_cons_of_mem x hcc)
    simp only [List.cons_append, splitChar, List.append_eq]
    rw [if_neg hx, ih hxs]

lemma beforeLastDot_of_not_mem {cs : List Char} (h : '.' ∉ cs) :
    beforeLastDot cs = none := by
  induction cs with
  | nil => rfl
  | cons c cs ih =>
    have hc : c ≠ '.' := fun hcc => h (hcc ▸ List.mem_cons_self c cs)
    have hcs : '.' ∉ cs := fun hcc => h (List.mem_cons_of_mem c hcc)
    simp only [beforeLastDot, ih hcs]
    rw [if_neg hc]

lemma beforeLastDot_append (xs : List Char) {ts : List Char} (h : '.' ∉ ts) :
    beforeLastDot (xs ++ '.' :: ts) = some xs := by
  induction xs with
  | nil =>
    simp only [List.nil_append, beforeLastDot, beforeLastDot_of_not_mem h]
    simp
  | cons x xs ih =>
    simp only [List.cons_append, beforeLastDot, List.append_eq, ih]

lemma not_mem_of_fromLastDot_none {cs : List Char} (h : fromLastDot cs = none) :
    '.' ∉ cs := by
  induction cs with
  | nil => simp
  | cons c cs ih =>
    simp only [fromLastDot] at h
    cases hrec : fromLastDot cs with
    | some tail => rw [hrec] at h; cases h
    | none =>
      rw [hrec] at h
      by_cases hc : c = '.'
      · rw [if_pos hc] at h; cases h
      · intro hmem
        rcases List.mem_cons.mp hmem with hmem | hmem
        · exact hc hmem.symm
        · exact ih hrec hmem

lemma fromLastDot_shape (cs : List Char) (es : List Char) (h : fromLastDot cs = some es) :
    ∃ ts, es = '.' :: ts ∧ '.' ∉ ts := by
  induction cs generalizing es with
  | nil => cases h
  | cons c cs ih =>
    simp only [fromLastDot] at h
    cases hrec : fromLastDot cs with
    | some tail =>
      rw [hrec] at h
      cases h
      exact ih _ hrec
    | none =>
      rw [hrec] at h
      by_cases hc : c = '.'
      · rw [if_pos hc] at h
        cases h
        subst hc
        exact ⟨cs, rfl, not_mem_of_fromLastDot_none hrec⟩
      · rw [if_neg hc] at h
        cases h

lemma keyExtension_shape (fileType fileName : String) :
    ∃ ts, (keyExtension fileType fileName).data = '.' :: ts ∧ '.' ∉ ts := by
  unfold keyExtension
  cases hf : fromLastDot fileName.data with
  | some es =>
    obtain ⟨ts, hes, hts⟩ := fromLastDot_shape _ _ hf
    exact ⟨ts, by rw [hes], hts⟩
  | none =>
    by_cases hft : fileType = "pdf"
    · exact ⟨['p', 'd', 'f'], by rw [if_pos hft], by decide⟩
    · exact ⟨['j', 'p', 'g'], by rw [if_neg hft], by decide⟩

lemma parsers_invert_key_layout (tp : String) (htp : tp = "pdf" ∨ tp = "images")
    (userId fileId year month day ext : String)
    (hu : '/' ∉ userId.data) (hf : '/' ∉ fileId.data)
    (hy : '/' ∉ year.data) (hm : '/' ∉ month.data) (hd : '/' ∉ day.data)
    (hx : '/' ∉ ext.data)
    (hshape : ∃ ts, ext.data = '.' :: ts ∧ '.' ∉ ts) :
    extractFileIdFromKey (tp ++ "/" ++ userId ++ "/" ++ year ++ "/" ++ month ++ "/" ++ day
        ++ "/" ++ fileId ++ ext) = some fileId
    ∧ extractUserIdFromKey (tp ++ "/" ++ userId ++ "/" ++ year ++ "/" ++ month ++ "/" ++ day
        ++ "/" ++ fileId ++ ext) = some userId := by
  have htp' : '/' ∉ tp.data := by
    rcases htp with h | h <;> subst h <;> decide
  have hlast : '/' ∉ fileId.data ++ ext.data := by
    intro hmem
    rcases List.mem_append.mp hmem with hmem | hmem
    · exact hf hmem
    · exact hx hmem
  have hdata : (tp ++ "/" ++ userId ++ "/" ++ year ++ "/" ++ month ++ "/" ++ day
        ++ "/" ++ fileId ++ ext).data
      = tp.data ++ '/' :: (userId.data ++ '/' :: (year.data ++ '/' :: (month.data
          ++ '/' :: (day.data ++ '/' :: (fileId.data ++ ext.data))))) := by
    simp [String.data_append]
  have hsplit : splitChar '/' (tp ++ "/" ++ userId ++ "/" ++ year ++ "/" ++ month ++ "/"
        ++ day ++ "/" ++ fileId ++ ext).data
      = [tp.data, userId.data, year.data, month.data, day.data, fileId.data ++ ext.data] := by
    rw [hdata, splitChar_append _ htp', splitChar_append _ hu, splitChar_append _ hy,
      splitChar_append _ hm, splitChar_append _ hd, splitChar_of_not_mem hlast]
  constructor
  · unfold extractFileIdFromKey
    rw [hsplit]
    obtain ⟨ts, hts, hnd⟩ := hshape
    simp only [List.length_cons, List.length_nil]
    rw [if_neg (by omega)]
    have hlastd : ([tp.data, userId.data, year.data, month.data, day.data,
        fileId.data ++ ext.data] : List (List Char)).getLastD [] = fileId.data ++ ext.data := rfl
    rw [hlastd, hts, beforeLastDot_append _ hnd]
    simp
  · unfold extractUserIdFromKey
    rw [hsplit]
    simp only [List.length_cons, List.length_nil]
    rw [if_neg (by omega)]
    have hp0 : ([tp.data, userId.data, year.data, month.data, day.data,
        fileId.data ++ ext.data] : List (List Char)).getD 0 [] = tp.data := rfl
    have hp1 : ([tp.data, userId.data, year.data, month.data, day.data,
        fileId.data ++ ext.data] : List (List Char)).getD 1 [] = userId.data := rfl
    rw [hp0, hp1]
    have hcond : ¬(tp.data ≠ "pdf".data ∧ tp.data ≠ "images".data) := by
      rcases htp with h | h <;> subst h <;> simp
    rw [if_neg hcond]

/-- C4 counterexample: for the input (pdf, "a/b", "f1", "doc.pdf") —
an ownerId containing the key separator — the parser applied to the built
key does not recover the ownerId the key was built for (it recovers "a"),
so the round-trip property does not hold for *every* input. -/
theorem s3Key_roundtrip_counterexample :
    extractUserIdFromKey (generateS3Key "pdf" "a/b" "f1" "doc.pdf" "2024" "01" "15")
      ≠ some "a/b"
    ∧ extractUserIdFromKey (generateS3Key "pdf" "a/b" "f1" "doc.pdf" "2024" "01" "15")
      = some "a" := by decide

/-- C4 (amended): for every (type, ownerId, fileId, fileName) input whose
ownerId, fileId, derived extension and formatted date components are free
of the `/` separator — as every value produced by the system is (UUID
fileIds, a slash-free principal, zero-padded decimal dates) — the
Reconciler's parsers applied to the built key recover exactly the fileId
and the ownerId the key was built for. -/
theorem s3Key_roundtrip (fileType userId fileId fileName year month day : String)
    (hu : '/' ∉ userId.data) (hf : '/' ∉ fileId.data)
    (hy : '/' ∉ year.data) (hm : '/' ∉ month.data) (hd : '/' ∉ day.data)
    (hx : '/' ∉ (keyExtension fileType fileName).data) :
    extractFileIdFromKey (generateS3Key fileType userId fileId fileName year month day)
      = some fileId
    ∧ extractUserIdFromKey (generateS3Key fileType userId fileId fileName year month day)
      = some userId := by
  have hkey : generateS3Key fileType userId fileId fileName year month day
      = (if fileType = "pdf" then "pdf" else "images") ++ "/" ++ userId ++ "/" ++ year
        ++ "/" ++ month ++ "/" ++ day ++ "/" ++ fileId
        ++ keyExtension fileType fileName := rfl
  rw [hkey]
  refine parsers_invert_key_layout _ ?_ userId fileId year month day _
    hu hf hy hm hd hx (keyExtension_shape fileType fileName)
  by_cases hft : fileType = "pdf"
  · left; rw [if_pos hft]
  · right; rw [if_neg hft]

/-- C4 witness: the round-trip at the unit tests' concrete input. -/
theorem s3Key_roundtrip_witness :
    extractFileIdFromKey
        (generateS3Key "pdf" "user-123" "file-456" "document.pdf" "2024" "01" "15")
      = some "file-456"
    ∧ extractUserIdFromKey
        (generateS3Key "pdf" "user-123" "file-456" "document.pdf" "2024" "01" "15")
      = some "user-123" :=
  s3Key_roundtrip "pdf" "user-123" "file-456" "document.pdf" "2024" "01" "15"
    (by decide) (by decide) (by decide) (by decide) (by decide) (by decide)

/-! ## Claim theorems: batch processing of the Status Reconciler -/

lemma runRecords_no_abort (now : String) (records : List S3EventRecord) :
    ∀ store : Store,
      (∀ r ∈ records, (normalizeKey r.objectKey).isSome = true) →
      (runRecords now records store).1.length = records.length
      ∧ (runRecords now records store).2.2.2 = false := by
  induction records with
  | nil => intro store _; simp [runRecords]
  | cons r rs ih =>
    intro store hdec
    obtain ⟨key, hkey⟩ := Option.isSome_iff_exists.mp (hdec r (by simp))
    have hrest := ih (processEvent now store r.eventName key).2.1
      fun x hx => hdec x (by simp [hx])
    simp only [runRecords, hkey]
    simp [List.length_cons, hrest.1, hrest.2]

/-- C5 (amended): for every batch in which each event's raw object key is
a well-formed URI component (as all storage-delivered keys are — the
normalisation `decodeURIComponent` does not throw), the handler processes
every event — one aggregated result per event, no aborted invocation — a
failure on one event never prevents processing of the remaining events,
and the invocation as a whole signals failure (throws the aggregate
error) if and only if at least one event in the batch failed. -/
theorem batch_isolation (now : String) (store : Store) (records : List S3EventRecord)
    (hdec : ∀ r ∈ records, (normalizeKey r.objectKey).isSome = true) :
    (s3Handler now store records).processed.length = records.length
    ∧ (s3Handler now store records).result ≠ .uriError
    ∧ ((s3Handler now store records).result = .ok ↔
        ∀ p ∈ (s3Handler now store records).processed, p.success = true) := by
  obtain ⟨hlen, hab⟩ := runRecords_no_abort now records store hdec
  simp only [s3Handler]
  rw [hab]
  simp only [Bool.false_eq_true, if_false]
  by_cases hfail :
      ((runRecords now records store).1.filter fun p => !p.success).length > 0
  · rw [if_pos hfail]
    refine ⟨hlen, by simp, ?_⟩
    constructor
    · intro hcontra; cases hcontra
    · intro hall
      exfalso
      obtain ⟨p0, hp0⟩ := List.exists_mem_of_length_pos hfail
      obtain ⟨hp0mem, hp0f⟩ := List.mem_filter.mp hp0
      have := hall p0 hp0mem
      rw [this] at hp0f
      cases hp0f
  · rw [if_neg hfail]
    refine ⟨hlen, by simp, ?_⟩
    simp only [true_iff]
    intro p hp
    by_contra hps
    apply hfail
    apply List.length_pos.mpr
    intro hnil
    have : p ∈ (runRecords now records store).1.filter fun p => !p.success :=
      List.mem_filter.mpr ⟨hp, by simp [hps]⟩
    rw [hnil] at this
    cases this

/-- C5 counterexample: the key normalisation
`decodeURIComponent(key.replace(/\+/g, " "))` runs *outside* the
per-record `try`/`catch`, so a malformed key (here `"%"`, on which
`decodeURIComponent` throws `URIError`) aborts the whole invocation: in
the two-event batch below, the second event — which on its own succeeds
and performs the status write — is never processed (no aggregated result,
no write, the record stays `PENDING_UPLOAD`), contradicting the claim
that a failure on one event does not prevent processing of the rest. -/
theorem batch_isolation_counterexample :
    s3Handler "T2"
        [{ PK := "USER#u1", SK := "FILE#f1", fileId := "f1", userId := "u1"
           fileName := "doc.pdf", mimeType := "application/pdf", sizeBytes := 1
           status := "PENDING_UPLOAD", s3Bucket := "b"
           s3Key := "pdf/u1/2024/01/15/f1.pdf", createdAt := "T0", updatedAt := "T0"
           uploadedAt := none, expiresAt := some "T1", ttl := some 100 }]
        [{ eventName := "ObjectCreated:Put", objectKey := "%" },
         { eventName := "ObjectCreated:Put", objectKey := "pdf/u1/2024/01/15/f1.pdf" }]
      = { store := [{ PK := "USER#u1", SK := "FILE#f1", fileId := "f1", userId := "u1"
                      fileName := "doc.pdf", mimeType := "application/pdf", sizeBytes := 1
                      status := "PENDING_UPLOAD", s3Bucket := "b"
                      s3Key := "pdf/u1/2024/01/15/f1.pdf", createdAt := "T0"
                      updatedAt := "T0", uploadedAt := none, expiresAt := some "T1"
                      ttl := some 100 }]
          processed := [], result := .uriError, writes := 0 }
    ∧ (s3Handler "T2"
        [{ PK := "USER#u1", SK := "FILE#f1", fileId := "f1", userId := "u1"
           fileName := "doc.pdf", mimeType := "application/pdf", sizeBytes := 1
           status := "PENDING_UPLOAD", s3Bucket := "b"
           s3Key := "pdf/u1/2024/01/15/f1.pdf", createdAt := "T0", updatedAt := "T0"
           uploadedAt := none, expiresAt := some "T1", ttl := some 100 }]
        [{ eventName := "ObjectCreated:Put", objectKey := "pdf/u1/2024/01/15/f1.pdf" }]).writes
      = 1 := by decide

/-- C5 witness: the amended theorem applied to a concrete two-event batch
with decodable keys — a parse failure on the first event (bad prefix) and
a success on the second; both are processed and the batch reports
failure. -/
theorem batch_isolation_witness :
    (s3Handler "T2"
        [{ PK := "USER#u1", SK := "FILE#f1", fileId := "f1", userId := "u1"
           fileName := "doc.pdf", mimeType := "application/pdf", sizeBytes := 1
           status := "PENDING_UPLOAD", s3Bucket := "b"
           s3Key := "pdf/u1/2024/01/15/f1.pdf", createdAt := "T0", updatedAt := "T0"
           uploadedAt := none, expiresAt := some "T1", ttl := some 100 }]
        [{ eventName := "ObjectCreated:Put", objectKey := "uploads/u1/2024/01/15/f9.pdf" },
         { eventName := "ObjectCreated:Put", objectKey := "pdf/u1/2024/01/15/f1.pdf" }]).processed.length
      = 2
    ∧ (s3Handler "T2"
        [{ PK := "USER#u1", SK := "FILE#f1", fileId := "f1", userId := "u1"
           fileName := "doc.pdf", mimeType := "application/pdf", sizeBytes := 1
           status := "PENDING_UPLOAD", s3Bucket := "b"
           s3Key := "pdf/u1/2024/01/15/f1.pdf", createdAt := "T0", updatedAt := "T0"
           uploadedAt := none, expiresAt := some "T1", ttl := some 100 }]
        [{ eventName := "ObjectCreated:Put", objectKey := "uploads/u1/2024/01/15/f9.pdf" },
         { eventName := "ObjectCreated:Put", objectKey := "pdf/u1/2024/01/15/f1.pdf" }]).result
      ≠ .uriError := by
  have h := batch_isolation "T2"
    [{ PK := "USER#u1", SK := "FILE#f1", fileId := "f1", userId := "u1"
       fileName := "doc.pdf", mimeType := "application/pdf", sizeBytes := 1
       status := "PENDING_UPLOAD", s3Bucket := "b"
       s3Key := "pdf/u1/2024/01/15/f1.pdf", createdAt := "T0", updatedAt := "T0"
       uploadedAt := none, expiresAt := some "T1", ttl := some 100 }]
    [{ eventName := "ObjectCreated:Put", objectKey := "uploads/u1/2024/01/15/f9.pdf" },
     { eventName := "ObjectCreated:Put", objectKey := "pdf/u1/2024/01/15/f1.pdf" }]
    (by decide)
  exact ⟨h.1, h.2.1⟩

/-! ## Claim theorems: idempotent reconciliation and exactly-one transition -/

lemma find?_eq_some_of_unique {α : Type} (p : α → Bool) (l : List α) (a : α)
    (ha : a ∈ l) (hp : p a = true) (hu : ∀ b ∈ l, p b = true → b = a) :
    l.find? p = some a := by
  induction l with
  | nil => cases ha
  | cons hd tl ih =>
    by_cases hhd : p hd = true
    · have : hd = a := hu hd (by simp) hhd
      subst this
      simp [List.find?_cons, hhd]
    · have hne : hd ≠ a := fun hc => hhd (hc ▸ hp)
      have ha' : a ∈ tl := by
        rcases List.mem_cons.mp ha with h | h
        · exact absurd h.symm hne
        · exact h
      have hhd' : p hd = false := by simpa using hhd
      simp only [List.find?_cons, hhd']
      exact ih ha' fun b hb hpb => hu b (by simp [hb]) hpb

lemma getFileById_of_unique (store : Store) (r : StoredItem)
    (hmem : r ∈ store) (hu : ∀ it ∈ store, it.fileId = r.fileId → it = r) :
    DynamoFileRepository.getFileById r.fileId store
      = some (DynamoFileRepository.fileOfItem r) := by
  unfold DynamoFileRepository.getFileById
  rw [find?_eq_some_of_unique (fun it => it.fileId == r.fileId) store r hmem (by simp)
    fun b hb hpb => hu b hb ((beq_iff_eq ..).mp hpb)]
  rfl

lemma processEvent_already_uploaded (now : String) (store : Store) (key : String)
    (r : StoredItem)
    (hfid : extractFileIdFromKey key = some r.fileId) (hfne : r.fileId ≠ "")
    (huid : extractUserIdFromKey key = some r.userId) (hune : r.userId ≠ "")
    (hmem : r ∈ store) (hu : ∀ it ∈ store, it.fileId = r.fileId → it = r)
    (hstat : r.status = "UPLOADED") :
    processEvent now store "ObjectCreated:Put" key = (⟨key, true, none⟩, store, 0) := by
  unfold processEvent
  rw [if_neg (by simp)]
  rw [hfid, huid]
  simp only [jsTruthy, if_neg hfne, if_neg hune]
  rw [getFileById_of_unique store r hmem hu]
  simp [DynamoFileRepository.fileOfItem, Option.orElse, hstat]

lemma processEvent_pending_writes (now : String) (store : Store) (key : String)
    (r : StoredItem)
    (hfid : extractFileIdFromKey key = some r.fileId) (hfne : r.fileId ≠ "")
    (huid : extractUserIdFromKey key = some r.userId) (hune : r.userId ≠ "")
    (hmem : r ∈ store) (hu : ∀ it ∈ store, it.fileId = r.fileId → it = r)
    (hstat : r.status = "PENDING_UPLOAD") :
    processEvent now store "ObjectCreated:Put" key =
      (⟨key, true, none⟩,
       DynamoFileRepository.updateFile r.fileId r.userId
         { status := some "UPLOADED", uploadedAt := some now } now store,
       1) := by
  unfold processEvent
  rw [if_neg (by simp)]
  rw [hfid, huid]
  simp only [jsTruthy, if_neg hfne, if_neg hune]
  rw [getFileById_of_unique store r hmem hu]
  simp [DynamoFileRepository.fileOfItem, Option.orElse, hstat]

lemma updateFile_map_form (store : Store) (r : StoredItem) (now : String)
    (hPK : r.PK = userPK r.userId) (hSK : r.SK = fileSK r.fileId)
    (hkeys : ∀ it ∈ store, it.PK = r.PK → it.SK = r.SK → it = r) :
    DynamoFileRepository.updateFile r.fileId r.userId
        { status := some "UPLOADED", uploadedAt := some now } now store
      = store.map fun it => if it = r then uploadTransition now it else it := by
  unfold DynamoFileRepository.updateFile
  apply List.map_congr_left
  intro it hit
  by_cases hkm : keyMatches (userPK r.userId) (fileSK r.fileId) it = true
  · have hitPK : it.PK = r.PK := by
      rw [hPK]; exact (beq_iff_eq ..).mp ((Bool.and_eq_true _ _).mp hkm).1
    have hitSK : it.SK = r.SK := by
      rw [hSK]; exact (beq_iff_eq ..).mp ((Bool.and_eq_true _ _).mp hkm).2
    have hit_eq : it = r := hkeys it hit hitPK hitSK
    rw [if_pos hkm, if_pos hit_eq]
    rfl
  · have hne : it ≠ r := by
      intro hc
      subst hc
      exact hkm (by rw [← hPK, ← hSK]; exact keyMatches_self it)
    rw [if_neg hkm, if_neg hne]

lemma runRecords_replicate_uploaded (now key : String) (r : StoredItem) (N : Nat) :
    ∀ store : Store, r ∈ store → (∀ it ∈ store, it.fileId = r.fileId → it = r) →
      r.status = "UPLOADED" →
      normalizeKey key = some key →
      extractFileIdFromKey key = some r.fileId → r.fileId ≠ "" →
      extractUserIdFromKey key = some r.userId → r.userId ≠ "" →
      runRecords now (List.replicate N ⟨"ObjectCreated:Put", key⟩) store
        = (List.replicate N ⟨key, true, none⟩, store, 0, false) := by
  induction N with
  | zero => intros; simp [runRecords]
  | succ n ih =>
    intro store hmem hu hstat hdec hfid hfne huid hune
    rw [List.replicate_succ]
    simp only [runRecords, hdec]
    rw [processEvent_already_uploaded now store key r hfid hfne huid hune hmem hu hstat]
    rw [ih store hmem hu hstat hdec hfid hfne huid hune]
    simp [List.replicate_succ]

/-- C2: for a record already `UPLOADED`, processing a creation event for
its key any number of times performs no write at all — the table is
returned unchanged, so `status` and `uploadedAt` are untouched — and every
event is reported as a success (the invocation ends without error).
Hypotheses: the record is in the table, its `fileId` is unambiguous (the
uniqueness invariant backing the `FileIdIndex` lookup), and its stored
key is a plain key that normalises to itself and parses back to the
record's own ids. -/
theorem reconciler_idempotent_on_uploaded (now : String) (store : Store) (r : StoredItem)
    (N : Nat)
    (hmem : r ∈ store) (hu : ∀ it ∈ store, it.fileId = r.fileId → it = r)
    (hstat : r.status = "UPLOADED")
    (hdec : normalizeKey r.s3Key = some r.s3Key)
    (hfid : extractFileIdFromKey r.s3Key = some r.fileId) (hfne : r.fileId ≠ "")
    (huid : extractUserIdFromKey r.s3Key = some r.userId) (hune : r.userId ≠ "") :
    s3Handler now store (List.replicate N ⟨"ObjectCreated:Put", r.s3Key⟩)
      = ⟨store, List.replicate N ⟨r.s3Key, true, none⟩, .ok, 0⟩ := by
  simp only [s3Handler]
  rw [runRecords_replicate_uploaded now r.s3Key r N store hmem hu hstat hdec hfid hfne
    huid hune]
  have hfilter : (List.replicate N (⟨r.s3Key, true, none⟩ : ProcessedRecord)).filter
      (fun p => !p.success) = [] := by
    apply List.filter_eq_nil_iff.mpr
    intro p hp
    rw [(List.mem_replicate.mp hp).2]
    simp
  simp [hfilter]

/-- C2 witness: an `UPLOADED` record receiving the same creation event
three times — unchanged table, three successes, zero writes. -/
theorem reconciler_idempotent_on_uploaded_witness :
    s3Handler "T9"
        [{ PK := "USER#u1", SK := "FILE#f1", fileId := "f1", userId := "u1"
           fileName := "doc.pdf", mimeType := "application/pdf", sizeBytes := 1
           status := "UPLOADED", s3Bucket := "b"
           s3Key := "pdf/u1/2024/01/15/f1.pdf", createdAt := "T0", updatedAt := "T2"
           uploadedAt := some "T2", expiresAt := some "T1", ttl := some 100 }]
        (List.replicate 3 { eventName := "ObjectCreated:Put"
                            objectKey := "pdf/u1/2024/01/15/f1.pdf" })
      = { store := [{ PK := "USER#u1", SK := "FILE#f1", fileId := "f1", userId := "u1"
                      fileName := "doc.pdf", mimeType := "application/pdf", sizeBytes := 1
                      status := "UPLOADED", s3Bucket := "b"
                      s3Key := "pdf/u1/2024/01/15/f1.pdf", createdAt := "T0"
                      updatedAt := "T2", uploadedAt := some "T2", expiresAt := some "T1"
                      ttl := some 100 }]
          processed := List.replicate 3 { key := "pdf/u1/2024/01/15/f1.pdf"
                                          success := true, error := none }
          result := .ok, writes := 0 } :=
  reconciler_idempotent_on_uploaded "T9" _
    { PK := "USER#u1", SK := "FILE#f1", fileId := "f1", userId := "u1"
      fileName := "doc.pdf", mimeType := "application/pdf", sizeBytes := 1
      status := "UPLOADED", s3Bucket := "b"
      s3Key := "pdf/u1/2024/01/15/f1.pdf", createdAt := "T0", updatedAt := "T2"
      uploadedAt := some "T2", expiresAt := some "T1", ttl := some 100 }
    3 (by decide) (by decide) (by decide) (by decide) (by decide) (by decide)
    (by decide) (by decide)

/-- C1: starting from a `PENDING_UPLOAD` record whose stored key parses
back to its own ids (as every key built by the issuer does), sequentially
delivering N ≥ 1 `ObjectCreated:Put` events for that key performs exactly
one effective status write — the single `updateFile` setting
`status := UPLOADED` and `uploadedAt` — after which the record is
`UPLOADED`, every event in the run is reported a success, and no other
item of the table is touched. -/
theorem reconciler_exactly_one_transition (now : String) (store : Store) (r : StoredItem)
    (N : Nat) (hN : 1 ≤ N)
    (hmem : r ∈ store)
    (hu : ∀ it ∈ store, it.fileId = r.fileId → it = r)
    (hkeys : ∀ it ∈ store, it.PK = r.PK → it.SK = r.SK → it = r)
    (hPK : r.PK = userPK r.userId) (hSK : r.SK = fileSK r.fileId)
    (hstat : r.status = "PENDING_UPLOAD")
    (hdec : normalizeKey r.s3Key = some r.s3Key)
    (hfid : extractFileIdFromKey r.s3Key = some r.fileId) (hfne : r.fileId ≠ "")
    (huid : extractUserIdFromKey r.s3Key = some r.userId) (hune : r.userId ≠ "") :
    s3Handler now store (List.replicate N ⟨"ObjectCreated:Put", r.s3Key⟩)
      = ⟨store.map fun it => if it = r then uploadTransition now it else it,
         List.replicate N ⟨r.s3Key, true, none⟩, .ok, 1⟩ := by
  obtain ⟨n, rfl⟩ : ∃ n, N = n + 1 := ⟨N - 1, by omega⟩
  rw [List.replicate_succ]
  have hstep : processEvent now store "ObjectCreated:Put" r.s3Key
      = (⟨r.s3Key, true, none⟩,
         store.map fun it => if it = r then uploadTransition now it else it, 1) := by
    rw [processEvent_pending_writes now store r.s3Key r hfid hfne huid hune hmem hu hstat,
      updateFile_map_form store r now hPK hSK hkeys]
  have hr2mem : uploadTransition now r
      ∈ store.map fun it => if it = r then uploadTransition now it else it :=
    List.mem_map.mpr ⟨r, hmem, by simp⟩
  have hr2u : ∀ it ∈ store.map fun it => if it = r then uploadTransition now it else it,
      it.fileId = r.fileId → it = uploadTransition now r := by
    intro it hit hfid2
    obtain ⟨it0, hit0, heq⟩ := List.mem_map.mp hit
    by_cases h0 : it0 = r
    · rw [← heq, if_pos h0, h0]
    · rw [if_neg h0] at heq
      subst heq
      exact absurd (hu it0 hit0 hfid2) h0
  have hrest := runRecords_replicate_uploaded now r.s3Key (uploadTransition now r) n
    (store.map fun it => if it = r then uploadTransition now it else it)
    hr2mem hr2u rfl hdec hfid hfne huid hune
  simp only [s3Handler, runRecords, hdec, hstep, hrest]
  have hfilter : ((⟨r.s3Key, true, none⟩ : ProcessedRecord)
        :: List.replicate n (⟨r.s3Key, true, none⟩ : ProcessedRecord)).filter
      (fun p => !p.success) = [] := by
    apply List.filter_eq_nil_iff.mpr
    intro p hp
    rcases List.mem_cons.mp hp with h | h
    · rw [h]; simp
    · rw [(List.mem_replicate.mp h).2]; simp
  simp [hfilter, List.replicate_succ]

/-- C1 witness: a concrete `PENDING_UPLOAD` record receiving the same
creation event twice — exactly one write, final status `UPLOADED` with
`uploadedAt` stamped, both events reported successes. -/
theorem reconciler_exactly_one_transition_witness :
    s3Handler "T5"
        [{ PK := "USER#u1", SK := "FILE#f1", fileId := "f1", userId := "u1"
           fileName := "doc.pdf", mimeType := "application/pdf", sizeBytes := 1
           status := "PENDING_UPLOAD", s3Bucket := "b"
           s3Key := "pdf/u1/2024/01/15/f1.pdf", createdAt := "T0", updatedAt := "T0"
           uploadedAt := none, expiresAt := some "T1", ttl := some 100 }]
        (List.replicate 2 { eventName := "ObjectCreated:Put"
                            objectKey := "pdf/u1/2024/01/15/f1.pdf" })
      = { store := [{ PK := "USER#u1", SK := "FILE#f1", fileId := "f1", userId := "u1"
                      fileName := "doc.pdf", mimeType := "application/pdf", sizeBytes := 1
                      status := "UPLOADED", s3Bucket := "b"
                      s3Key := "pdf/u1/2024/01/15/f1.pdf", createdAt := "T0"
                      updatedAt := "T5", uploadedAt := some "T5", expiresAt := some "T1"
                      ttl := some 100 }]
          processed := List.replicate 2 { key := "pdf/u1/2024/01/15/f1.pdf"
                                          success := true, error := none }
          result := .ok, writes := 1 } :=
  (reconciler_exactly_one_transition "T5" _
    { PK := "USER#u1", SK := "FILE#f1", fileId := "f1", userId := "u1"
      fileName := "doc.pdf", mimeType := "application/pdf", sizeBytes := 1
      status := "PENDING_UPLOAD", s3Bucket := "b"
      s3Key := "pdf/u1/2024/01/15/f1.pdf", createdAt := "T0", updatedAt := "T0"
      uploadedAt := none, expiresAt := some "T1", ttl := some 100 }
    2 (by decide) (by decide) (by decide) (by decide) (by decide) (by decide)
    (by decide) (by decide) (by decide) (by decide) (by decide) (by decide)).trans
    (by decide)
